import Mathlib

/-
Shallow embedding of `main.py` from the ww-resources-downloader repository.

Modelling conventions:
* File contents are `List Nat` (byte values); the filesystem is a partial map
  `String → Option (List Nat)` from paths to contents.
* The MD5 digest (`hashlib.md5(...).hexdigest()`) is an abstract parameter
  `md5fn : List Nat → String`; `calculate_md5` streams the whole file, so its
  result is a function of the file's byte contents only.
* The HTTP server is a record of response functions; a `none` response models
  `requests` raising a transport exception.  A function result field
  `ret : Option Bool` is `some b` for a normal `return b` and `none` when a
  Python exception escapes the function.
* Thread pools (`ThreadPoolExecutor`) are serialized in submission order: every
  submitted task runs (futures are all submitted before any `result()` call),
  and chunk writers touch pairwise disjoint paths/offsets, so the sequential
  fold computes the same final state the concurrent program produces on its
  success paths.
* `int(...)`/`//` on Python non-negative ints is `Nat`; chunk-range endpoints
  can be `-1` (e.g. `(i+1)*chunk_size - 1` with `chunk_size = 0`), so byte
  ranges are pairs of `Int`.
-/

namespace WWRD

/-- One entry of the catalog's `resource` array: `{dest: string, md5: string}`. -/
structure Resource where
  dest : String
  md5 : String
deriving DecidableEq, Repr

/-- Network requests issued by the downloader (`requests.head` / `requests.get`,
with or without a `Range` header). -/
inductive NetEvent where
  | headReq (url : String)
  | getReq (url : String)
  | rangeReq (url : String) (s e : Int)
deriving DecidableEq, Repr

/-- The remote HTTP server.  `none` models the request raising a transport
exception; `headCL u = some cl` is a successful HEAD whose `content-length`
header is `cl` (absent when `cl = none`). -/
structure Server where
  headCL : String → Option (Option Nat)
  getBody : String → Option (List Nat)
  rangeBody : String → Int → Int → Option (List Nat)

/-- The local filesystem: path → file contents. -/
def FS : Type := String → Option (List Nat)

/-- Writing a whole file at a path (`open(path, 'wb')` semantics). -/
def FS.update (fs : FS) (p : String) (c : List Nat) : FS :=
  fun q => if q = p then some c else fs q

/-- Python `str.lstrip('/')`: drop all leading `'/'` characters. -/
def lstripSlash (s : String) : String :=
  String.mk (s.toList.dropWhile (fun ch => ch == '/'))

/-- `os.path.join` for the path shapes used here (no absolute second part). -/
def pjoin (a b : String) : String := a ++ "/" ++ b

/-- `dest_path = os.path.join(base_dir, resource['dest'].lstrip('/'))` (main.py:47). -/
def destPathOf (base_dir : String) (r : Resource) : String :=
  pjoin base_dir (lstripSlash r.dest)

/-- `url = f"{main_url}/{resource['dest'].lstrip('/')}"` (main.py:48). -/
def urlOf (main_url : String) (r : Resource) : String :=
  main_url ++ "/" ++ lstripSlash r.dest

/-- `calculate_md5` (main.py:9-14): digest of the full byte contents of the
file; `none` when the file cannot be opened. -/
def calculate_md5 (md5fn : List Nat → String) (fs : FS) (path : String) : Option String :=
  (fs path).map md5fn

/-- Whether the file at `p` exists and its digest equals `m`. -/
def digestOk (md5fn : List Nat → String) (fs : FS) (p m : String) : Bool :=
  match fs p with
  | some c => md5fn c == m
  | none => false

/-- `f.seek(off)` followed by writing `body` sequentially (`r+b` mode): bytes
`[off, off+|body|)` are replaced, the file grows if the write runs past the
end, and a seek past EOF zero-fills the gap. -/
def writeAt (content : List Nat) (off : Nat) (body : List Nat) : List Nat :=
  let padded := content ++ List.replicate (off - content.length) 0
  padded.take off ++ body ++ padded.drop (off + body.length)

/-- Python `chunks[-1] = (chunks[-1][0], v)` (main.py:30): replace the second
component of the last element. -/
def setLastEnd : List (Int × Int) → Int → List (Int × Int)
  | [], _ => []
  | [p], e => [(p.1, e)]
  | p :: q :: l, e => p :: setLastEnd (q :: l) e

/-- The byte-range partition computed at main.py:28-30:
`chunk_size = total_size // num_connections`,
`chunks = [(i*chunk_size, (i+1)*chunk_size - 1) for i in range(num_connections)]`,
then the last range's end is replaced by `total_size - 1`. -/
def chunkRanges (total_size num_connections : Nat) : List (Int × Int) :=
  setLastEnd
    ((List.range num_connections).map
      (fun i => (((i * (total_size / num_connections) : Nat) : Int),
                 ((((i + 1) * (total_size / num_connections) : Nat) : Int) - 1))))
    ((total_size : Int) - 1)

/-- Closed form of the `i`-th generated byte range. -/
def gIdx (T N : Nat) (i : Nat) : Int × Int :=
  (((i * (T / N) : Nat) : Int),
   if i = N - 1 then (T : Int) - 1 else ((((i + 1) * (T / N) : Nat) : Int) - 1))

/-- Membership of a byte offset in an inclusive byte range. -/
def inRange (p : Int × Int) (x : Int) : Prop := p.1 ≤ x ∧ x ≤ p.2

/-- Result of `download_and_verify_file`: `ret = some b` models `return b`,
`ret = none` models a Python exception escaping the function.  `events` lists
the network requests issued, `failed` is the shared failure list afterwards. -/
structure DvfOut where
  ret : Option Bool
  fs : FS
  events : List NetEvent
  failed : List Resource

/-- The post-download verification step (main.py:78-83): recompute the digest
of `dest_path`; on match return `True`, on mismatch append the resource to the
failure list and return `False`.  A missing/unreadable file means
`calculate_md5`'s `open` raises (`ret = none`). -/
def verifyPhase (md5fn : List Nat → String) (fs : FS) (r : Resource) (dest_path : String)
    (failed : List Resource) (evs : List NetEvent) : DvfOut :=
  match fs dest_path with
  | none => DvfOut.mk none fs evs failed
  | some content =>
    if md5fn content = r.md5 then DvfOut.mk (some true) fs evs failed
    else DvfOut.mk (some false) fs evs (failed ++ [r])

/-- `download_chunk` (main.py:17-24): issue a `Range: bytes=s-e` GET, open the
destination file itself (`open(dest_path, 'r+b')` — a fresh handle per
invocation), seek to `s` and stream the body there.  The `Bool` is `false`
when the request raises or the file cannot be opened. -/
def download_chunk (srv : Server) (fs : FS) (url : String) (s e : Int)
    (dest_path : String) : FS × NetEvent × Bool :=
  match srv.rangeBody url s e with
  | none => (fs, NetEvent.rangeReq url s e, false)
  | some body =>
    match fs dest_path with
    | none => (fs, NetEvent.rangeReq url s e, false)
    | some content =>
      (FS.update fs dest_path (writeAt content s.toNat body), NetEvent.rangeReq url s e, true)

/-- One step of the chunk worker pool: run the next `download_chunk` unless an
earlier chunk already raised (the first failed `future.result()` aborts
`download_file_multi_connection`). -/
def chunkStep (srv : Server) (url dest_path : String)
    (acc : FS × List NetEvent × Bool) (se : Int × Int) : FS × List NetEvent × Bool :=
  if acc.2.2 then
    ((download_chunk srv acc.1 url se.1 se.2 dest_path).1,
     acc.2.1 ++ [(download_chunk srv acc.1 url se.1 se.2 dest_path).2.1],
     (download_chunk srv acc.1 url se.1 se.2 dest_path).2.2)
  else acc

/-- `download_file_multi_connection` (main.py:27-43): compute the byte-range
partition, pre-size the destination to `total_size` zero bytes
(`open(..., 'wb'); f.truncate(total_size)`), then run all chunk fetches.  The
worker pool is serialized in submission order: the chunks write pairwise
disjoint ranges of the one pre-sized file, so the final contents on the
success path equal those of any concurrent interleaving.  The `Bool` is
`false` when some chunk raised. -/
def download_file_multi_connection (srv : Server) (fs : FS) (url dest_path : String)
    (total_size num_connections : Nat) : FS × List NetEvent × Bool :=
  (chunkRanges total_size num_connections).foldl (chunkStep srv url dest_path)
    (FS.update fs dest_path (List.replicate total_size 0), [], true)

/-- The fetch part of `download_and_verify_file` (main.py:60-83): HEAD probe
plus chunked download when `use_multi_connection`, otherwise one streaming GET
written to `dest_path`; then the verification step.  No exception is caught
here (the source has no try/except): a raising request yields `ret = none`. -/
def fetchPhase (md5fn : List Nat → String) (srv : Server) (fs : FS) (r : Resource)
    (url dest_path : String) (failed : List Resource) (use_multi : Bool)
    (num_connections : Nat) : DvfOut :=
  if use_multi then
    match srv.headCL url with
    | none => DvfOut.mk none fs [NetEvent.headReq url] failed
    | some cl =>
      if (download_file_multi_connection srv fs url dest_path (cl.getD 0) num_connections).2.2 then
        verifyPhase md5fn
          (download_file_multi_connection srv fs url dest_path (cl.getD 0) num_connections).1
          r dest_path failed
          (NetEvent.headReq url ::
            (download_file_multi_connection srv fs url dest_path (cl.getD 0) num_connections).2.1)
      else
        DvfOut.mk none
          (download_file_multi_connection srv fs url dest_path (cl.getD 0) num_connections).1
          (NetEvent.headReq url ::
            (download_file_multi_connection srv fs url dest_path (cl.getD 0) num_connections).2.1)
          failed
  else
    match srv.getBody url with
    | none => DvfOut.mk none fs [NetEvent.getReq url] failed
    | some body =>
      verifyPhase md5fn (FS.update fs dest_path body) r dest_path failed [NetEvent.getReq url]

/-- `download_and_verify_file` (main.py:46-83): skip when the destination
exists with a matching digest (main.py:54-58), otherwise fetch and verify. -/
def download_and_verify_file (md5fn : List Nat → String) (srv : Server) (fs : FS)
    (r : Resource) (main_url base_dir : String) (failed : List Resource)
    (use_multi : Bool) (num_connections : Nat) : DvfOut :=
  match fs (destPathOf base_dir r) with
  | some content =>
    if md5fn content = r.md5 then DvfOut.mk (some true) fs [] failed
    else
      fetchPhase md5fn srv fs r (urlOf main_url r) (destPathOf base_dir r) failed
        use_multi num_connections
  | none =>
    fetchPhase md5fn srv fs r (urlOf main_url r) (destPathOf base_dir r) failed
      use_multi num_connections

/-- Result of `download_resources`: final filesystem, all network events, the
shared failure list, the per-resource return values in catalog order
(`none` = that orchestration raised), the failure report written (path and
entries), and whether `download_resources` itself re-raised an exception from
`future.result()` (in which case no report is written). -/
structure RunOut where
  fs : FS
  events : List NetEvent
  failed : List Resource
  outcomes : List (Option Bool)
  report : Option (String × List Resource)
  exc : Bool

/-- One step of the file worker pool (main.py:97-107): every submitted future
runs regardless of the others' results; results are collected in submission
order. -/
def runStep (md5fn : List Nat → String) (srv : Server) (main_url base_dir : String)
    (use_multi : Bool) (num_connections : Nat)
    (acc : FS × List NetEvent × List Resource × List (Option Bool)) (r : Resource) :
    FS × List NetEvent × List Resource × List (Option Bool) :=
  ((download_and_verify_file md5fn srv acc.1 r main_url base_dir acc.2.2.1
      use_multi num_connections).fs,
   acc.2.1 ++ (download_and_verify_file md5fn srv acc.1 r main_url base_dir acc.2.2.1
      use_multi num_connections).events,
   (download_and_verify_file md5fn srv acc.1 r main_url base_dir acc.2.2.1
      use_multi num_connections).failed,
   acc.2.2.2 ++ [(download_and_verify_file md5fn srv acc.1 r main_url base_dir acc.2.2.1
      use_multi num_connections).ret])

/-- The worker-pool loop of `download_resources` over all resources. -/
def runAll (md5fn : List Nat → String) (srv : Server) (cwd : String) (fs : FS)
    (resources : List Resource) (main_url version : String) (use_multi : Bool)
    (num_connections : Nat) : FS × List NetEvent × List Resource × List (Option Bool) :=
  resources.foldl
    (runStep md5fn srv main_url (pjoin (pjoin cwd "download") version) use_multi num_connections)
    (fs, [], [], [])

/-- `download_resources` (main.py:86-114): run every orchestration, then — if
no collected `future.result()` re-raised — write
`failed/<version>/<json_name>` as JSON `{"resource": [...failed...]}` when the
failure list is non-empty (`open(..., 'w')` overwrites any existing file).
`max_concurrent_files` only bounds the worker pool; it does not affect the
sequentialized results. -/
def download_resources (md5fn : List Nat → String) (srv : Server) (cwd : String) (fs : FS)
    (resources : List Resource) (main_url version json_name : String)
    (use_multi : Bool) (num_connections max_concurrent_files : Nat) : RunOut :=
  RunOut.mk
    (runAll md5fn srv cwd fs resources main_url version use_multi num_connections).1
    (runAll md5fn srv cwd fs resources main_url version use_multi num_connections).2.1
    (runAll md5fn srv cwd fs resources main_url version use_multi num_connections).2.2.1
    (runAll md5fn srv cwd fs resources main_url version use_multi num_connections).2.2.2
    (if (runAll md5fn srv cwd fs resources main_url version use_multi
          num_connections).2.2.2.any (fun o => o.isNone) then none
     else if (runAll md5fn srv cwd fs resources main_url version use_multi
          num_connections).2.2.1.isEmpty then none
     else some (pjoin (pjoin (pjoin cwd "failed") version) json_name,
       (runAll md5fn srv cwd fs resources main_url version use_multi num_connections).2.2.1))
    ((runAll md5fn srv cwd fs resources main_url version use_multi
        num_connections).2.2.2.any (fun o => o.isNone))

/-- A file handle: contents plus the handle's implicit position cursor. -/
structure Handle where
  content : List Nat
  pos : Nat
deriving DecidableEq, Repr

/-- Operations a chunk worker performs on a handle. -/
inductive FileOp where
  | seekOp (p : Nat)
  | writeOp (b : List Nat)
deriving DecidableEq, Repr

/-- `f.seek(p)` / `f.write(b)` semantics on a handle. -/
def applyOp (h : Handle) : FileOp → Handle
  | FileOp.seekOp p => Handle.mk h.content p
  | FileOp.writeOp b => Handle.mk (writeAt h.content h.pos b) (h.pos + b.length)

/-- Run a sequence of file operations on a handle. -/
def runOps (h : Handle) (ops : List FileOp) : Handle := ops.foldl applyOp h

/-- The operations one chunk worker performs on its handle (main.py:20-23):
seek to the chunk start, then write the response body. -/
def workerOps (s : Nat) (body : List Nat) : List FileOp :=
  [FileOp.seekOp s, FileOp.writeOp body]

/-- Modelled from the spec's words for claim comparison: the hypothesized
semantics in which all chunk workers share ONE file handle (one implicit
position cursor), executing some interleaving `ops` of their operations. -/
def sharedHandleRun (content : List Nat) (ops : List FileOp) : List Nat :=
  (runOps (Handle.mk content 0) ops).content

/-- Python truthiness of an optional string argument (`if json_url:`):
`None` and `""` are falsy. -/
def truthy : Option String → Bool
  | none => false
  | some s => s != ""

/-- `os.path.basename`: everything after the last `'/'`. -/
def basename (s : String) : String :=
  String.mk (((s.toList.reverse.takeWhile (fun ch => ch != '/'))).reverse)

/-- Errors of `load_resources`: the explicit `ValueError` (main.py:124), or a
raising `requests.get`/`open`/JSON parse. -/
inductive LoadErr where
  | valueError
  | fetchError
  | readError
deriving DecidableEq, Repr

/-- I/O actions of `load_resources`. -/
inductive LoadEvent where
  | urlFetch (u : String)
  | fileOpen (p : String)
deriving DecidableEq, Repr

/-- `load_resources` (main.py:116-124) with the parsed-JSON payload abstract
(`α`); `net`/`disk` return `none` when fetching/reading-parsing raises. -/
def load_resources {α : Type} (net : String → Option α) (disk : String → Option α)
    (json_url json_file : Option String) :
    Except LoadErr (α × String) × List LoadEvent :=
  if truthy json_url then
    match net (json_url.getD "") with
    | some j => (Except.ok (j, basename (json_url.getD "")), [LoadEvent.urlFetch (json_url.getD "")])
    | none => (Except.error LoadErr.fetchError, [LoadEvent.urlFetch (json_url.getD "")])
  else if truthy json_file then
    match disk (json_file.getD "") with
    | some j => (Except.ok (j, basename (json_file.getD "")), [LoadEvent.fileOpen (json_file.getD "")])
    | none => (Except.error LoadErr.readError, [LoadEvent.fileOpen (json_file.getD "")])
  else (Except.error LoadErr.valueError, [])

end WWRD

namespace WWRD

theorem inRange_def (p : Int × Int) (x : Int) : inRange p x ↔ p.1 ≤ x ∧ x ≤ p.2 :=
  Iff.rfl

theorem setLastEnd_append (l : List (Int × Int)) (p : Int × Int) (e : Int) :
    setLastEnd (l ++ [p]) e = l ++ [(p.1, e)] := by
  induction l with
  | nil => rfl
  | cons x xs ih =>
    cases xs with
    | nil => rfl
    | cons y ys =>
      simp only [List.cons_append, setLastEnd] at ih ⊢
      exact congrArg _ ih

theorem chunkRanges_eq (T N : Nat) :
    chunkRanges T N = (List.range N).map (gIdx T N) := by
  cases N with
  | zero => rfl
  | succ m =>
    unfold chunkRanges
    rw [List.range_succ, List.map_append, List.map_singleton, setLastEnd_append,
      List.map_append, List.map_singleton]
    congr 1
    · refine List.map_congr_left (fun i hi => ?_)
      have him : i < m := List.mem_range.mp hi
      have hne : ¬ i = m := by omega
      simp [gIdx, hne]
    · have : m = m + 1 - 1 := by omega
      simp [gIdx, ← this]

theorem chunkRanges_length (T N : Nat) : (chunkRanges T N).length = N := by
  rw [chunkRanges_eq]; simp

theorem chunkRanges_getElem (T N i : Nat) (hi : i < N) :
    (chunkRanges T N)[i]? = some (gIdx T N i) := by
  rw [chunkRanges_eq, List.getElem?_map, List.getElem?_range hi]
  simp

theorem chunkRanges_getElem_inv (T N i : Nat) (p : Int × Int)
    (h : (chunkRanges T N)[i]? = some p) : i < N ∧ p = gIdx T N i := by
  have hlen : i < (chunkRanges T N).length := by
    by_contra hc
    rw [List.getElem?_eq_none (by omega)] at h
    exact Option.noConfusion h
  have hiN : i < N := by rwa [chunkRanges_length] at hlen
  have := chunkRanges_getElem T N i hiN
  rw [this] at h
  exact ⟨hiN, (Option.some.inj h).symm⟩

/-- Helper: the chunk count times the chunk size bounds the total from below and above. -/
theorem chunk_size_bounds (T N : Nat) (hN : 0 < N) :
    N * (T / N) ≤ T ∧ T < N * (T / N) + N := by
  have h1 := Nat.div_add_mod T N
  have h2 := Nat.mod_lt T hN
  constructor <;> omega

theorem gIdx_disjoint_lt (T N : Nat) (i j : Nat) (hij : i < j) (hj : j < N) (x : Int)
    (hx1 : inRange (gIdx T N i) x) (hx2 : inRange (gIdx T N j) x) : False := by
  have hiN : ¬ i = N - 1 := by omega
  have hle : (i + 1) * (T / N) ≤ j * (T / N) :=
    Nat.mul_le_mul_right _ (by omega)
  have hle' : (((i + 1) * (T / N) : Nat) : Int) ≤ ((j * (T / N) : Nat) : Int) := by
    exact_mod_cast hle
  rw [inRange_def] at hx1 hx2
  simp only [gIdx, if_neg hiN] at hx1
  simp only [gIdx] at hx2
  obtain ⟨-, hxe⟩ := hx1
  obtain ⟨hxs, -⟩ := hx2
  omega

/-- C1: for every `total_size T > 0` and connection count `N > 0`, the byte
ranges computed at main.py:28-30 (embedded as `chunkRanges`) number exactly
`N`, are pairwise disjoint and contiguous, their union is exactly `[0, T-1]`,
and the last range's end equals `T - 1` regardless of `T % N`. -/
theorem gIdx_mem_le (T N : Nat) (hN : 0 < N) (i : Nat) (hi : i < N) (x : Int)
    (hx : inRange (gIdx T N i) x) : 0 ≤ x ∧ x ≤ (T : Int) - 1 := by
  obtain ⟨hcb1, hcb2⟩ := chunk_size_bounds T N hN
  rw [inRange_def] at hx
  obtain ⟨hxs, hxe⟩ := hx
  simp only [gIdx] at hxs hxe
  have hs0 : (0 : Int) ≤ ((i * (T / N) : Nat) : Int) := Int.natCast_nonneg _
  refine ⟨le_trans hs0 hxs, ?_⟩
  by_cases hi' : i = N - 1
  · rw [if_pos hi'] at hxe; exact hxe
  · rw [if_neg hi'] at hxe
    have h1 : (i + 1) * (T / N) ≤ N * (T / N) :=
      Nat.mul_le_mul_right _ (by omega)
    have h2 : (((i + 1) * (T / N) : Nat) : Int) ≤ ((N * (T / N) : Nat) : Int) := by
      exact_mod_cast h1
    have h3 : ((N * (T / N) : Nat) : Int) ≤ (T : Int) := by exact_mod_cast hcb1
    omega

theorem gIdx_cover (T N : Nat) (hN : 0 < N) (x : Int)
    (hx0 : 0 ≤ x) (hxT : x ≤ (T : Int) - 1) :
    ∃ i : Nat, i < N ∧ inRange (gIdx T N i) x := by
  have hxm : x = ((x.toNat : Nat) : Int) := (Int.toNat_of_nonneg hx0).symm
  set m : Nat := x.toNat with hm
  have hmT : m < T := by omega
  by_cases hc : T / N = 0
  · refine ⟨N - 1, by omega, ?_, ?_⟩
    · show (((N - 1) * (T / N) : Nat) : Int) ≤ x
      have h0 : ((N - 1) * (T / N) : Nat) = 0 := by rw [hc]; omega
      rw [h0]
      exact hx0
    · show x ≤ (gIdx T N (N - 1)).2
      simp only [gIdx, if_pos rfl]
      exact hxT
  · have hc0 : 0 < T / N := Nat.pos_of_ne_zero hc
    rcases Nat.lt_or_ge (m / (T / N)) (N - 1) with h | h
    · refine ⟨m / (T / N), by omega, ?_, ?_⟩
      · show ((m / (T / N) * (T / N) : Nat) : Int) ≤ x
        have h1 : m / (T / N) * (T / N) ≤ m := Nat.div_mul_le_self m (T / N)
        have h2 : ((m / (T / N) * (T / N) : Nat) : Int) ≤ ((m : Nat) : Int) := by
          exact_mod_cast h1
        omega
      · show x ≤ (gIdx T N (m / (T / N))).2
        simp only [gIdx, if_neg (by omega : ¬ m / (T / N) = N - 1)]
        have h1 := Nat.div_add_mod m (T / N)
        have h2 := Nat.mod_lt m hc0
        have h3 : m < (m / (T / N) + 1) * (T / N) := by
          rw [Nat.succ_mul, Nat.mul_comm]
          omega
        have h4 : ((m : Nat) : Int) < (((m / (T / N) + 1) * (T / N) : Nat) : Int) := by
          exact_mod_cast h3
        omega
    · refine ⟨N - 1, by omega, ?_, ?_⟩
      · show (((N - 1) * (T / N) : Nat) : Int) ≤ x
        have h1 : (N - 1) * (T / N) ≤ m / (T / N) * (T / N) :=
          Nat.mul_le_mul_right _ h
        have h2 : m / (T / N) * (T / N) ≤ m := Nat.div_mul_le_self m (T / N)
        have h3 : (((N - 1) * (T / N) : Nat) : Int) ≤ ((m : Nat) : Int) := by
          exact_mod_cast le_trans h1 h2
        omega
      · show x ≤ (gIdx T N (N - 1)).2
        simp only [gIdx, if_pos rfl]
        exact hxT

/-- C1: for every `total_size T > 0` and connection count `N > 0`, the byte
ranges computed at main.py:28-30 (embedded as `chunkRanges`) number exactly
`N`, are pairwise disjoint and contiguous, their union is exactly `[0, T-1]`,
and the last range's end equals `T - 1` regardless of `T % N`. -/
theorem chunkRanges_partition (T N : Nat) (hT : 0 < T) (hN : 0 < N) :
    (chunkRanges T N).length = N ∧
    (∀ (i j : Nat) (p q : Int × Int) (x : Int), i ≠ j → (chunkRanges T N)[i]? = some p →
      (chunkRanges T N)[j]? = some q → inRange p x → inRange q x → False) ∧
    (∀ (i : Nat) (p q : Int × Int), (chunkRanges T N)[i]? = some p →
      (chunkRanges T N)[i + 1]? = some q → q.1 = p.2 + 1) ∧
    (∀ x : Int, (∃ (i : Nat) (p : Int × Int), (chunkRanges T N)[i]? = some p ∧ inRange p x) ↔
      (0 ≤ x ∧ x ≤ (T : Int) - 1)) ∧
    (chunkRanges T N).getLast?.map Prod.snd = some ((T : Int) - 1) := by
  refine ⟨chunkRanges_length T N, ?_, ?_, ?_, ?_⟩
  · intro i j p q x hij hp hq hxp hxq
    obtain ⟨hiN, rfl⟩ := chunkRanges_getElem_inv T N i p hp
    obtain ⟨hjN, rfl⟩ := chunkRanges_getElem_inv T N j q hq
    rcases Nat.lt_or_ge i j with h | h
    · exact gIdx_disjoint_lt T N i j h hjN x hxp hxq
    · have hji : j < i := by omega
      exact gIdx_disjoint_lt T N j i hji hiN x hxq hxp
  · intro i p q hp hq
    obtain ⟨hiN, rfl⟩ := chunkRanges_getElem_inv T N i p hp
    obtain ⟨hi1N, rfl⟩ := chunkRanges_getElem_inv T N (i + 1) q hq
    have hiN' : ¬ i = N - 1 := by omega
    show (gIdx T N (i + 1)).1 = (gIdx T N i).2 + 1
    simp only [gIdx, if_neg hiN']
    omega
  · intro x
    constructor
    · rintro ⟨i, p, hp, hx⟩
      obtain ⟨hiN, rfl⟩ := chunkRanges_getElem_inv T N i p hp
      exact gIdx_mem_le T N hN i hiN x hx
    · rintro ⟨hx0, hxT⟩
      obtain ⟨i, hiN, hx⟩ := gIdx_cover T N hN x hx0 hxT
      exact ⟨i, gIdx T N i, chunkRanges_getElem T N i hiN, hx⟩
  · rw [chunkRanges_eq]
    cases N with
    | zero => omega
    | succ n =>
      rw [List.range_succ, List.map_append, List.map_singleton, List.getLast?_concat]
      simp [gIdx]

/-- Witness for C1 at `total_size = 10`, `num_connections = 4`. -/
theorem chunkRanges_partition_witness :
    0 < 10 ∧ 0 < 4 ∧
      (chunkRanges 10 4).getLast?.map Prod.snd = some ((10 : Int) - 1) :=
  ⟨by decide, by decide, (chunkRanges_partition 10 4 (by decide) (by decide)).2.2.2.2⟩

theorem FS.update_self (fs : FS) (p : String) (c : List Nat) :
    FS.update fs p c p = some c := by
  simp [FS.update]

theorem FS.update_other (fs : FS) (p q : String) (c : List Nat) (h : q ≠ p) :
    FS.update fs p c q = fs q := by
  simp [FS.update, h]

/-- Shared helper: the skip path of `download_and_verify_file` (main.py:54-58). -/
theorem dvf_skip (md5fn : List Nat → String) (srv : Server) (fs : FS) (r : Resource)
    (main_url base_dir : String) (failed : List Resource) (use_multi : Bool) (N : Nat)
    (c : List Nat) (h1 : fs (destPathOf base_dir r) = some c) (h2 : md5fn c = r.md5) :
    download_and_verify_file md5fn srv fs r main_url base_dir failed use_multi N =
      DvfOut.mk (some true) fs [] failed := by
  simp [download_and_verify_file, h1, h2]

/-- C2: for a resource whose destination file already exists with a digest
equal to the expected checksum, `download_and_verify_file` issues no network
request at all (no HEAD, GET or range request), leaves the filesystem
untouched and the failure list unchanged, and returns `True`. -/
theorem skip_performs_no_fetch (md5fn : List Nat → String) (srv : Server) (fs : FS)
    (r : Resource) (main_url base_dir : String) (failed : List Resource)
    (use_multi : Bool) (N : Nat) (c : List Nat)
    (h1 : fs (destPathOf base_dir r) = some c) (h2 : md5fn c = r.md5) :
    download_and_verify_file md5fn srv fs r main_url base_dir failed use_multi N =
      DvfOut.mk (some true) fs [] failed :=
  dvf_skip md5fn srv fs r main_url base_dir failed use_multi N c h1 h2

/-- Witness for C2 on a one-byte file whose digest matches. -/
theorem skip_performs_no_fetch_witness :
    download_and_verify_file (fun l => if l = [65] then "A" else "x")
        (Server.mk (fun _ => some (some 0)) (fun _ => some []) (fun _ _ _ => some []))
        (fun p => if p = "b/a" then some [65] else none)
        (Resource.mk "a" "A") "u" "b" [] false 1 =
      DvfOut.mk (some true) (fun p => if p = "b/a" then some [65] else none) [] [] :=
  skip_performs_no_fetch (fun l => if l = [65] then "A" else "x")
    (Server.mk (fun _ => some (some 0)) (fun _ => some []) (fun _ _ _ => some []))
    (fun p => if p = "b/a" then some [65] else none)
    (Resource.mk "a" "A") "u" "b" [] false 1 [65] (by decide) (by decide)

/-- Counterexample to C3: with a raising GET (`requests.get` transport error),
`download_and_verify_file` does NOT convert the error into a Failed outcome:
it returns no value (`ret = none`, the exception escapes) and appends nothing
to the failure list. -/
theorem transfer_error_escapes_cex :
    (download_and_verify_file (fun _ => "d")
        (Server.mk (fun _ => some (some 1)) (fun _ => none) (fun _ _ _ => some []))
        (fun _ => none) (Resource.mk "a.bin" "d") "u" "b" [] false 1).ret = none ∧
    (download_and_verify_file (fun _ => "d")
        (Server.mk (fun _ => some (some 1)) (fun _ => none) (fun _ _ _ => some []))
        (fun _ => none) (Resource.mk "a.bin" "d") "u" "b" [] false 1).failed = [] := by
  constructor <;> rfl

/-- C3 (amended): an integrity mismatch IS handled inside
`download_and_verify_file` — it returns `False` and appends the resource to
the shared failure list without raising — but a transport error from the
fetch is NOT caught (the source has no try/except): the exception escapes the
function (`ret = none`) and no failure record is appended. -/
theorem mismatch_caught_transfer_error_escapes (md5fn : List Nat → String) (srv : Server)
    (fs : FS) (r : Resource) (main_url base_dir : String) (failed : List Resource) (N : Nat)
    (h0 : fs (destPathOf base_dir r) = none) :
    (∀ body : List Nat, srv.getBody (urlOf main_url r) = some body → md5fn body ≠ r.md5 →
      (download_and_verify_file md5fn srv fs r main_url base_dir failed false N).ret =
          some false ∧
      (download_and_verify_file md5fn srv fs r main_url base_dir failed false N).failed =
          failed ++ [r]) ∧
    (srv.getBody (urlOf main_url r) = none →
      (download_and_verify_file md5fn srv fs r main_url base_dir failed false N).ret = none ∧
      (download_and_verify_file md5fn srv fs r main_url base_dir failed false N).failed =
          failed) := by
  constructor
  · intro body hb hne
    constructor <;> simp [download_and_verify_file, h0, fetchPhase, hb, verifyPhase,
      FS.update, hne]
  · intro hb
    constructor <;> simp [download_and_verify_file, h0, fetchPhase, hb]

/-- Witness for the amended C3: a concrete mismatching download is converted
into `False` plus a failure record. -/
theorem mismatch_caught_transfer_error_escapes_witness :
    (download_and_verify_file (fun _ => "x")
        (Server.mk (fun _ => some (some 1)) (fun _ => some [7]) (fun _ _ _ => some []))
        (fun _ => none) (Resource.mk "a" "m") "u" "b" [] false 1).ret = some false ∧
    (download_and_verify_file (fun _ => "x")
        (Server.mk (fun _ => some (some 1)) (fun _ => some [7]) (fun _ _ _ => some []))
        (fun _ => none) (Resource.mk "a" "m") "u" "b" [] false 1).failed =
      [Resource.mk "a" "m"] :=
  (mismatch_caught_transfer_error_escapes (fun _ => "x")
      (Server.mk (fun _ => some (some 1)) (fun _ => some [7]) (fun _ _ _ => some []))
      (fun _ => none) (Resource.mk "a" "m") "u" "b" [] 1 (by decide)).1
    [7] (by decide) (by decide)

/-- C6: in multi-connection mode, a successful HEAD with no `content-length`
header makes `download_and_verify_file` proceed with `total_size = 0` — it
invokes `download_file_multi_connection` on the degenerate partition (every
generated range is empty: end `< ` start) instead of treating the missing
header or the zero size as an error. -/
theorem missing_content_length_degenerate (md5fn : List Nat → String) (srv : Server)
    (fs : FS) (r : Resource) (main_url base_dir : String) (failed : List Resource) (N : Nat)
    (h0 : fs (destPathOf base_dir r) = none)
    (hHd : srv.headCL (urlOf main_url r) = some none) :
    (download_and_verify_file md5fn srv fs r main_url base_dir failed true N =
      (if (download_file_multi_connection srv fs (urlOf main_url r)
            (destPathOf base_dir r) 0 N).2.2 then
        verifyPhase md5fn
          (download_file_multi_connection srv fs (urlOf main_url r)
            (destPathOf base_dir r) 0 N).1 r (destPathOf base_dir r) failed
          (NetEvent.headReq (urlOf main_url r) ::
            (download_file_multi_connection srv fs (urlOf main_url r)
              (destPathOf base_dir r) 0 N).2.1)
      else
        DvfOut.mk none
          (download_file_multi_connection srv fs (urlOf main_url r)
            (destPathOf base_dir r) 0 N).1
          (NetEvent.headReq (urlOf main_url r) ::
            (download_file_multi_connection srv fs (urlOf main_url r)
              (destPathOf base_dir r) 0 N).2.1)
          failed)) ∧
    (∀ se ∈ chunkRanges 0 N, se.2 < se.1) := by
  constructor
  · simp [download_and_verify_file, h0, fetchPhase, hHd]
  · intro se hse
    rw [chunkRanges_eq] at hse
    obtain ⟨i, hi, rfl⟩ := List.mem_map.mp hse
    simp only [gIdx, Nat.zero_div, Nat.mul_zero, Nat.cast_zero, Nat.cast_ofNat]
    by_cases h : i = N - 1 <;> simp [h]

/-- Witness for C6: HEAD without `content-length`, two connections; the
orchestration still returns normally (here `True` on the empty file). -/
theorem missing_content_length_degenerate_witness :
    (download_and_verify_file (fun _ => "z")
        (Server.mk (fun _ => some none) (fun _ => some []) (fun _ _ _ => some []))
        (fun _ => none) (Resource.mk "a" "z") "u" "b" [] true 2).ret = some true ∧
    (∀ se ∈ chunkRanges 0 2, se.2 < se.1) := by
  have h := missing_content_length_degenerate (fun _ => "z")
    (Server.mk (fun _ => some none) (fun _ => some []) (fun _ _ _ => some []))
    (fun _ => none) (Resource.mk "a" "z") "u" "b" [] 2 (by decide) (by decide)
  refine ⟨?_, h.2⟩
  rw [h.1]
  decide

/-- Counterexample to C5: a short read is NOT always a Failed outcome.  Here
the resource's true content is `[0x41, 0x00]`, the server answers range
`[1,1]` (width 1) with an empty body (a short read), yet the zero pre-sized
byte left behind coincides with the expected content, the digest matches, and
`download_and_verify_file` returns `True` with an empty failure list. -/
theorem short_read_not_always_failed_cex :
    (Server.mk (fun _ => some (some 2)) (fun _ => some [])
        (fun _ s _ => if s = 0 then some [65] else some [])).rangeBody "u/a.bin" 1 1 =
      some [] ∧
    (List.length ([] : List Nat) : Int) < 1 - 1 + 1 ∧
    chunkRanges 2 2 = [(0, 0), (1, 1)] ∧
    (download_and_verify_file (fun l => if l = [65, 0] then "ok" else "no")
        (Server.mk (fun _ => some (some 2)) (fun _ => some [])
          (fun _ s _ => if s = 0 then some [65] else some []))
        (fun _ => none) (Resource.mk "a.bin" "ok") "u" "b" [] true 2).ret = some true ∧
    (download_and_verify_file (fun l => if l = [65, 0] then "ok" else "no")
        (Server.mk (fun _ => some (some 2)) (fun _ => some [])
          (fun _ s _ => if s = 0 then some [65] else some []))
        (fun _ => none) (Resource.mk "a.bin" "ok") "u" "b" [] true 2).failed = [] := by
  refine ⟨rfl, by decide, by decide, rfl, rfl⟩

/-- C5 (amended): `download_chunk` never checks the body length against the
range width, so a short read surfaces only through the final digest
comparison: the resource's outcome is Failed exactly when the digest of the
zero-padded result differs from the expected checksum.  In the spec's
concrete scenario — content 10 bytes of 0x41, `num_connections = 2`, the
server delivering only 4 of the 5 bytes of range `[5,9]` — the assembled file
is 9 bytes of 0x41 plus a zero byte, its digest differs, and the outcome is
Failed with the resource appended to the failure list. -/
theorem short_read_fails_via_digest (md5fn : List Nat → String) (srv : Server) (fs : FS)
    (r : Resource) (main_url base_dir : String) (failed : List Resource)
    (h0 : fs (destPathOf base_dir r) = none)
    (hHd : srv.headCL (urlOf main_url r) = some (some 10))
    (hr1 : srv.rangeBody (urlOf main_url r) 0 4 = some (List.replicate 5 65))
    (hr2 : srv.rangeBody (urlOf main_url r) 5 9 = some (List.replicate 4 65))
    (hne : md5fn (List.replicate 9 65 ++ [0]) ≠ r.md5) :
    (download_and_verify_file md5fn srv fs r main_url base_dir failed true 2).ret =
        some false ∧
    (download_and_verify_file md5fn srv fs r main_url base_dir failed true 2).failed =
        failed ++ [r] := by
  have hcr : chunkRanges 10 2 = [((0 : Int), (4 : Int)), ((5 : Int), (9 : Int))] := by decide
  have hwfull : writeAt (writeAt [0, 0, 0, 0, 0, 0, 0, 0, 0, 0] 0 [65, 65, 65, 65, 65]) 5
      [65, 65, 65, 65] = List.replicate 9 65 ++ [0] := by decide
  refine ⟨?_, ?_⟩ <;>
    (simp [download_and_verify_file, h0, fetchPhase, hHd, download_file_multi_connection,
       hcr, chunkStep, download_chunk, hr1, hr2, FS.update_self, verifyPhase]
     rw [hwfull, if_neg hne])

/-- Witness for the amended C5 with a concrete digest function. -/
theorem short_read_fails_via_digest_witness :
    (download_and_verify_file (fun l => if l = List.replicate 10 65 then "full" else "part")
        (Server.mk (fun _ => some (some 10)) (fun _ => some [])
          (fun _ s _ => if s = 0 then some (List.replicate 5 65)
            else some (List.replicate 4 65)))
        (fun _ => none) (Resource.mk "a.bin" "full") "u" "b" [] true 2).ret = some false ∧
    (download_and_verify_file (fun l => if l = List.replicate 10 65 then "full" else "part")
        (Server.mk (fun _ => some (some 10)) (fun _ => some [])
          (fun _ s _ => if s = 0 then some (List.replicate 5 65)
            else some (List.replicate 4 65)))
        (fun _ => none) (Resource.mk "a.bin" "full") "u" "b" [] true 2).failed =
      [] ++ [Resource.mk "a.bin" "full"] :=
  short_read_fails_via_digest (fun l => if l = List.replicate 10 65 then "full" else "part")
    (Server.mk (fun _ => some (some 10)) (fun _ => some [])
      (fun _ s _ => if s = 0 then some (List.replicate 5 65) else some (List.replicate 4 65)))
    (fun _ => none) (Resource.mk "a.bin" "full") "u" "b" []
    (by decide) (by decide) (by decide) (by decide) (by decide)

/-- Counterexample to C9: the chunk workers do NOT behave like writers sharing
one handle's implicit cursor.  Under the claim's shared-cursor semantics, the
interleaving [w1 seeks 0, w2 seeks 5, w1 writes, w2 writes] places w1's bytes
at w2's offset and grows the file; the source's `download_chunk` (which opens
its own handle and seeks per invocation, main.py:20-21) instead produces the
offset-addressed contents, and the two disagree. -/
theorem shared_cursor_semantics_cex :
    some (sharedHandleRun (List.replicate 10 0)
        [FileOp.seekOp 0, FileOp.seekOp 5, FileOp.writeOp (List.replicate 5 65),
         FileOp.writeOp (List.replicate 5 66)]) ≠
      (download_chunk
          (Server.mk (fun _ => some (some 10)) (fun _ => some [])
            (fun _ s _ => if s = 0 then some (List.replicate 5 65)
              else some (List.replicate 5 66)))
          ((download_chunk
              (Server.mk (fun _ => some (some 10)) (fun _ => some [])
                (fun _ s _ => if s = 0 then some (List.replicate 5 65)
                  else some (List.replicate 5 66)))
              (fun p => if p = "f" then some (List.replicate 10 0) else none)
              "u" 0 4 "f").1)
          "u" 5 9 "f").1 "f" := by
  decide

/-- C9 (amended): each chunk worker opens its own file handle on the
destination path (`open(dest_path, 'r+b')` inside `download_chunk`) and seeks
on that private cursor, so one invocation's file effect is a positioned write
at the call-supplied offset — a pure function of the prior file contents, the
offset and the body, independent of any other worker's cursor — and paths
other than the destination are untouched. -/
theorem chunk_write_positioned (srv : Server) (fs : FS) (url dp : String) (s e : Int)
    (body c : List Nat) (hb : srv.rangeBody url s e = some body) (hc : fs dp = some c) :
    (download_chunk srv fs url s e dp).1 dp = some (writeAt c s.toNat body) ∧
    (∀ p, p ≠ dp → (download_chunk srv fs url s e dp).1 p = fs p) ∧
    (runOps (Handle.mk c 0) (workerOps s.toNat body)).content = writeAt c s.toNat body := by
  refine ⟨?_, ?_, rfl⟩
  · simp [download_chunk, hb, hc, FS.update_self]
  · intro p hp
    simp [download_chunk, hb, hc, FS.update_other _ _ _ _ hp]

/-- Witness for the amended C9 at a concrete chunk. -/
theorem chunk_write_positioned_witness :
    (download_chunk
        (Server.mk (fun _ => some (some 10)) (fun _ => some [])
          (fun _ _ _ => some [65, 66]))
        (fun p => if p = "f" then some [1, 2, 3, 4, 5, 6, 7] else none)
        "u" 2 3 "f").1 "f" =
      some (writeAt [1, 2, 3, 4, 5, 6, 7] ((2 : Int).toNat) [65, 66]) :=
  (chunk_write_positioned
    (Server.mk (fun _ => some (some 10)) (fun _ => some []) (fun _ _ _ => some [65, 66]))
    (fun p => if p = "f" then some [1, 2, 3, 4, 5, 6, 7] else none)
    "u" "f" 2 3 [65, 66] [1, 2, 3, 4, 5, 6, 7] (by decide) (by decide)).1

/-- Counterexample to C10: `load_resources` follows Python truthiness
(`if json_url:`), so calling it with `json_url` PROVIDED as the empty string
(and no `json_file`) still raises `ValueError`, contradicting "raises iff
neither argument is provided". -/
theorem load_resources_truthiness_cex :
    (some "" ≠ (none : Option String)) ∧
    (load_resources (fun _ => some (0 : Nat)) (fun _ => some 0) (some "") none).1 =
      Except.error LoadErr.valueError := by
  exact ⟨by decide, rfl⟩

/-- C10 (amended): `load_resources` raises `ValueError` iff both arguments
are falsy (absent or empty string); a truthy `json_url` takes precedence and
the local file is never opened (the only I/O event is the URL fetch), and
each non-error case returns the parsed payload paired with the basename of
the chosen source. -/
theorem load_resources_spec {α : Type} (net : String → Option α) (disk : String → Option α)
    (json_url json_file : Option String) :
    ((load_resources net disk json_url json_file).1 = Except.error LoadErr.valueError ↔
      (truthy json_url = false ∧ truthy json_file = false)) ∧
    (truthy json_url = true →
      (load_resources net disk json_url json_file).2 =
          [LoadEvent.urlFetch (json_url.getD "")] ∧
      (∀ j : α, net (json_url.getD "") = some j →
        (load_resources net disk json_url json_file).1 =
          Except.ok (j, basename (json_url.getD "")))) ∧
    (truthy json_url = false → truthy json_file = true →
      (load_resources net disk json_url json_file).2 =
          [LoadEvent.fileOpen (json_file.getD "")] ∧
      (∀ j : α, disk (json_file.getD "") = some j →
        (load_resources net disk json_url json_file).1 =
          Except.ok (j, basename (json_file.getD "")))) := by
  refine ⟨?_, ?_, ?_⟩
  · constructor
    · intro h
      by_cases hu : truthy json_url
      · exfalso
        cases hn : net (json_url.getD "") <;>
          simp [load_resources, hu, hn] at h
      · by_cases hf : truthy json_file
        · exfalso
          cases hd : disk (json_file.getD "") <;>
            simp [load_resources, hu, hf, hd] at h
        · simp at hu hf
          exact ⟨hu, hf⟩
    · rintro ⟨hu, hf⟩
      simp [load_resources, hu, hf]
  · intro hu
    refine ⟨?_, ?_⟩
    · cases hn : net (json_url.getD "") <;> simp [load_resources, hu, hn]
    · intro j hj
      simp [load_resources, hu, hj]
  · intro hu hf
    refine ⟨?_, ?_⟩
    · cases hd : disk (json_file.getD "") <;> simp [load_resources, hu, hf, hd]
    · intro j hj
      simp [load_resources, hu, hf, hj]

/-- Witness for the amended C10: both arguments provided and non-empty — the
URL wins and the file is never opened. -/
theorem load_resources_spec_witness :
    (load_resources (fun _ => some (37 : Nat)) (fun _ => some 0)
        (some "a/cat.json") (some "other.json")).2 =
      [LoadEvent.urlFetch "a/cat.json"] ∧
    (load_resources (fun _ => some (37 : Nat)) (fun _ => some 0)
        (some "a/cat.json") (some "other.json")).1 =
      Except.ok (37, basename "a/cat.json") := by
  have h := (load_resources_spec (fun _ => some (37 : Nat)) (fun _ => some 0)
    (some "a/cat.json") (some "other.json")).2.1 (by decide)
  exact ⟨h.1, h.2 37 rfl⟩

theorem digestOk_eq (md5fn : List Nat → String) (fs : FS) (p m : String) (c : List Nat)
    (h : fs p = some c) : digestOk md5fn fs p m = (md5fn c == m) := by
  simp [digestOk, h]

theorem digestOk_congr (md5fn : List Nat → String) (fs1 fs2 : FS) (p m : String)
    (h : fs1 p = fs2 p) : digestOk md5fn fs1 p m = digestOk md5fn fs2 p m := by
  simp [digestOk, h]

/-- Characterization of the verification step on a readable file. -/
theorem verify_spec (md5fn : List Nat → String) (fs : FS) (r : Resource) (dp : String)
    (failed : List Resource) (evs : List NetEvent) (c : List Nat) (hc : fs dp = some c) :
    verifyPhase md5fn fs r dp failed evs =
      DvfOut.mk (some (md5fn c == r.md5)) fs evs
        (if md5fn c = r.md5 then failed else failed ++ [r]) := by
  by_cases h : md5fn c = r.md5
  · simp [verifyPhase, hc, h]
  · have hb : (md5fn c == r.md5) = false := beq_eq_false_iff_ne.mpr h
    simp [verifyPhase, hc, h, hb]

/-- Invariant of the chunk worker loop when every range request succeeds: it
never raises, the destination stays readable, and no other path changes. -/
theorem chunkloop_spec (srv : Server) (url dp : String)
    (hR : ∀ u s e, (srv.rangeBody u s e).isSome = true) :
    ∀ (ranges : List (Int × Int)) (f : FS) (evs : List NetEvent) (c : List Nat),
      f dp = some c →
      ((ranges.foldl (chunkStep srv url dp) (f, evs, true)).2.2 = true ∧
       (∃ c2 : List Nat, (ranges.foldl (chunkStep srv url dp) (f, evs, true)).1 dp = some c2) ∧
       (∀ p, p ≠ dp → (ranges.foldl (chunkStep srv url dp) (f, evs, true)).1 p = f p)) := by
  intro ranges
  induction ranges with
  | nil => exact fun f evs c hc => ⟨rfl, ⟨c, hc⟩, fun p hp => rfl⟩
  | cons se rest ih =>
    intro f evs c hc
    obtain ⟨body, hb⟩ := Option.isSome_iff_exists.mp (hR url se.1 se.2)
    have hstep : chunkStep srv url dp (f, evs, true) se =
        (FS.update f dp (writeAt c se.1.toNat body),
         evs ++ [NetEvent.rangeReq url se.1 se.2], true) := by
      simp [chunkStep, download_chunk, hb, hc]
    rw [List.foldl_cons, hstep]
    obtain ⟨h1, h2, h3⟩ := ih (FS.update f dp (writeAt c se.1.toNat body))
      (evs ++ [NetEvent.rangeReq url se.1 se.2]) (writeAt c se.1.toNat body)
      (FS.update_self _ _ _)
    exact ⟨h1, h2, fun p hp => (h3 p hp).trans (FS.update_other _ _ _ _ hp)⟩

/-- `download_file_multi_connection` under a server whose range requests all
succeed: no chunk raises, the destination is readable afterwards, and other
paths are untouched. -/
theorem multi_spec (srv : Server) (fs : FS) (url dp : String) (T N : Nat)
    (hR : ∀ u s e, (srv.rangeBody u s e).isSome = true) :
    (download_file_multi_connection srv fs url dp T N).2.2 = true ∧
    (∃ c : List Nat, (download_file_multi_connection srv fs url dp T N).1 dp = some c) ∧
    (∀ p, p ≠ dp → (download_file_multi_connection srv fs url dp T N).1 p = fs p) := by
  obtain ⟨h1, h2, h3⟩ := chunkloop_spec srv url dp hR (chunkRanges T N)
    (FS.update fs dp (List.replicate T 0)) [] (List.replicate T 0) (FS.update_self _ _ _)
  exact ⟨h1, h2, fun p hp => (h3 p hp).trans (FS.update_other _ _ _ _ hp)⟩

/-- The fetch phase under a fully reachable server: some content lands at the
destination, the return value reflects the digest check, a failure record is
appended exactly on mismatch, and no other path changes. -/
theorem fetch_spec (md5fn : List Nat → String) (srv : Server) (fs : FS) (r : Resource)
    (url dp : String) (failed : List Resource) (use_multi : Bool) (N : Nat)
    (hH : ∀ u, (srv.headCL u).isSome = true)
    (hG : ∀ u, (srv.getBody u).isSome = true)
    (hR : ∀ u s e, (srv.rangeBody u s e).isSome = true) :
    ∃ c : List Nat,
      (fetchPhase md5fn srv fs r url dp failed use_multi N).fs dp = some c ∧
      (fetchPhase md5fn srv fs r url dp failed use_multi N).ret =
        some (md5fn c == r.md5) ∧
      (fetchPhase md5fn srv fs r url dp failed use_multi N).failed =
        (if md5fn c = r.md5 then failed else failed ++ [r]) ∧
      (∀ p, p ≠ dp → (fetchPhase md5fn srv fs r url dp failed use_multi N).fs p = fs p) := by
  cases use_multi with
  | false =>
    obtain ⟨body, hb⟩ := Option.isSome_iff_exists.mp (hG url)
    have heq : fetchPhase md5fn srv fs r url dp failed false N =
        verifyPhase md5fn (FS.update fs dp body) r dp failed [NetEvent.getReq url] := by
      simp [fetchPhase, hb]
    rw [heq, verify_spec md5fn _ r dp failed _ body (FS.update_self _ _ _)]
    exact ⟨body, FS.update_self _ _ _, rfl, rfl,
      fun p hp => FS.update_other _ _ _ _ hp⟩
  | true =>
    obtain ⟨cl, hcl⟩ := Option.isSome_iff_exists.mp (hH url)
    obtain ⟨hok, ⟨c2, hc2⟩, hunch⟩ := multi_spec srv fs url dp (cl.getD 0) N hR
    have heq : fetchPhase md5fn srv fs r url dp failed true N =
        verifyPhase md5fn
          (download_file_multi_connection srv fs url dp (cl.getD 0) N).1 r dp failed
          (NetEvent.headReq url ::
            (download_file_multi_connection srv fs url dp (cl.getD 0) N).2.1) := by
      simp [fetchPhase, hcl, hok]
    rw [heq, verify_spec md5fn _ r dp failed _ c2 hc2]
    exact ⟨c2, hc2, rfl, rfl, fun p hp => hunch p hp⟩

/-- Per-resource specification of `download_and_verify_file` under a fully
reachable server: it returns normally, the returned Boolean is the digest
check of the resulting destination file, a failure record is appended exactly
on mismatch, and no other path changes. -/
theorem dvf_spec (md5fn : List Nat → String) (srv : Server) (fs : FS) (r : Resource)
    (main_url base_dir : String) (failed : List Resource) (use_multi : Bool) (N : Nat)
    (hH : ∀ u, (srv.headCL u).isSome = true)
    (hG : ∀ u, (srv.getBody u).isSome = true)
    (hR : ∀ u s e, (srv.rangeBody u s e).isSome = true) :
    ∃ c : List Nat,
      (download_and_verify_file md5fn srv fs r main_url base_dir failed use_multi N).fs
          (destPathOf base_dir r) = some c ∧
      (download_and_verify_file md5fn srv fs r main_url base_dir failed use_multi N).ret =
        some (md5fn c == r.md5) ∧
      (download_and_verify_file md5fn srv fs r main_url base_dir failed use_multi N).failed =
        (if md5fn c = r.md5 then failed else failed ++ [r]) ∧
      (∀ p, p ≠ destPathOf base_dir r →
        (download_and_verify_file md5fn srv fs r main_url base_dir failed use_multi N).fs p =
          fs p) := by
  cases hfs : fs (destPathOf base_dir r) with
  | some c0 =>
    by_cases hmd : md5fn c0 = r.md5
    · rw [dvf_skip md5fn srv fs r main_url base_dir failed use_multi N c0 hfs hmd]
      refine ⟨c0, hfs, ?_, ?_, fun p hp => rfl⟩
      · simp [hmd]
      · simp [hmd]
    · have heq : download_and_verify_file md5fn srv fs r main_url base_dir failed use_multi N =
          fetchPhase md5fn srv fs r (urlOf main_url r) (destPathOf base_dir r) failed
            use_multi N := by
        simp [download_and_verify_file, hfs, hmd]
      rw [heq]
      exact fetch_spec md5fn srv fs r (urlOf main_url r) (destPathOf base_dir r) failed
        use_multi N hH hG hR
  | none =>
    have heq : download_and_verify_file md5fn srv fs r main_url base_dir failed use_multi N =
        fetchPhase md5fn srv fs r (urlOf main_url r) (destPathOf base_dir r) failed
          use_multi N := by
      simp [download_and_verify_file, hfs]
    rw [heq]
    exact fetch_spec md5fn srv fs r (urlOf main_url r) (destPathOf base_dir r) failed
      use_multi N hH hG hR

/-- Invariant of the file worker loop under a fully reachable server and
pairwise distinct destination paths: every resource's outcome is the digest
check of its final destination file, the failure list accumulates exactly the
mismatching resources in order, and untargeted paths are untouched. -/
theorem runfold_spec (md5fn : List Nat → String) (srv : Server)
    (main_url base_dir : String) (use_multi : Bool) (N : Nat)
    (hH : ∀ u, (srv.headCL u).isSome = true)
    (hG : ∀ u, (srv.getBody u).isSome = true)
    (hR : ∀ u s e, (srv.rangeBody u s e).isSome = true) :
    ∀ (rs : List Resource) (fs : FS) (evs : List NetEvent) (fl : List Resource)
      (outs : List (Option Bool)),
      (rs.map (destPathOf base_dir)).Nodup →
      ∃ (F : FS) (evs2 : List NetEvent),
        rs.foldl (runStep md5fn srv main_url base_dir use_multi N) (fs, evs, fl, outs) =
          (F, evs2,
           fl ++ rs.filter (fun r => !(digestOk md5fn F (destPathOf base_dir r) r.md5)),
           outs ++ rs.map (fun r => some (digestOk md5fn F (destPathOf base_dir r) r.md5))) ∧
        (∀ p, (∀ r ∈ rs, p ≠ destPathOf base_dir r) → F p = fs p) := by
  intro rs
  induction rs with
  | nil =>
    intro fs evs fl outs hnd
    exact ⟨fs, evs, by simp, fun p hp => rfl⟩
  | cons r rest ih =>
    intro fs evs fl outs hnd
    rw [List.map_cons, List.nodup_cons] at hnd
    obtain ⟨c, hcfs, hret, hfl, hunch⟩ :=
      dvf_spec md5fn srv fs r main_url base_dir fl use_multi N hH hG hR
    have hstep : runStep md5fn srv main_url base_dir use_multi N (fs, evs, fl, outs) r =
        ((download_and_verify_file md5fn srv fs r main_url base_dir fl use_multi N).fs,
         evs ++ (download_and_verify_file md5fn srv fs r main_url base_dir fl use_multi N).events,
         (download_and_verify_file md5fn srv fs r main_url base_dir fl use_multi N).failed,
         outs ++ [(download_and_verify_file md5fn srv fs r main_url base_dir fl
            use_multi N).ret]) := rfl
    obtain ⟨F, evs2, hfold, hFunch⟩ :=
      ih (download_and_verify_file md5fn srv fs r main_url base_dir fl use_multi N).fs
        (evs ++ (download_and_verify_file md5fn srv fs r main_url base_dir fl
          use_multi N).events)
        (download_and_verify_file md5fn srv fs r main_url base_dir fl use_multi N).failed
        (outs ++ [(download_and_verify_file md5fn srv fs r main_url base_dir fl
          use_multi N).ret])
        hnd.2
    have hFdp : F (destPathOf base_dir r) =
        (download_and_verify_file md5fn srv fs r main_url base_dir fl use_multi N).fs
          (destPathOf base_dir r) := by
      refine hFunch (destPathOf base_dir r) (fun r' hr' heq => ?_)
      exact hnd.1 (heq ▸ List.mem_map_of_mem (destPathOf base_dir) hr')
    have hdOk : digestOk md5fn F (destPathOf base_dir r) r.md5 = (md5fn c == r.md5) :=
      digestOk_eq md5fn F _ _ c (hFdp.trans hcfs)
    refine ⟨F, evs2, ?_, ?_⟩
    · rw [List.foldl_cons, hstep, hfold]
      by_cases hmd : md5fn c = r.md5
      · have hbeq : (md5fn c == r.md5) = true := by simp [hmd]
        have h1 : (download_and_verify_file md5fn srv fs r main_url base_dir fl
            use_multi N).failed ++
              rest.filter (fun a => !(digestOk md5fn F (destPathOf base_dir a) a.md5)) =
            fl ++ (r :: rest).filter
              (fun a => !(digestOk md5fn F (destPathOf base_dir a) a.md5)) := by
          rw [hfl, if_pos hmd, List.filter_cons]
          simp [hdOk, hbeq]
        have h2 : (outs ++ [(download_and_verify_file md5fn srv fs r main_url base_dir fl
            use_multi N).ret]) ++
              rest.map (fun a => some (digestOk md5fn F (destPathOf base_dir a) a.md5)) =
            outs ++ (r :: rest).map
              (fun a => some (digestOk md5fn F (destPathOf base_dir a) a.md5)) := by
          rw [hret, List.map_cons, hdOk]
          simp
        rw [h1, h2]
      · have hbeq : (md5fn c == r.md5) = false := beq_eq_false_iff_ne.mpr hmd
        have h1 : (download_and_verify_file md5fn srv fs r main_url base_dir fl
            use_multi N).failed ++
              rest.filter (fun a => !(digestOk md5fn F (destPathOf base_dir a) a.md5)) =
            fl ++ (r :: rest).filter
              (fun a => !(digestOk md5fn F (destPathOf base_dir a) a.md5)) := by
          rw [hfl, if_neg hmd, List.filter_cons]
          simp [hdOk, hbeq]
        have h2 : (outs ++ [(download_and_verify_file md5fn srv fs r main_url base_dir fl
            use_multi N).ret]) ++
              rest.map (fun a => some (digestOk md5fn F (destPathOf base_dir a) a.md5)) =
            outs ++ (r :: rest).map
              (fun a => some (digestOk md5fn F (destPathOf base_dir a) a.md5)) := by
          rw [hret, List.map_cons, hdOk]
          simp
        rw [h1, h2]
    · intro p hp
      have hp' : ∀ r' ∈ rest, p ≠ destPathOf base_dir r' :=
        fun r' hr' => hp r' (List.mem_cons_of_mem _ hr')
      exact (hFunch p hp').trans (hunch p (hp r (List.mem_cons_self _ _)))

/-- When every resource already matches on disk, the file worker loop is a
no-op apart from recording `True` outcomes. -/
theorem allskip_fold (md5fn : List Nat → String) (srv : Server)
    (main_url base_dir : String) (use_multi : Bool) (N : Nat) :
    ∀ (rs : List Resource) (fs : FS) (evs : List NetEvent) (fl : List Resource)
      (outs : List (Option Bool)),
      (∀ r ∈ rs, ∃ c : List Nat,
        fs (destPathOf base_dir r) = some c ∧ md5fn c = r.md5) →
      rs.foldl (runStep md5fn srv main_url base_dir use_multi N) (fs, evs, fl, outs) =
        (fs, evs, fl, outs ++ rs.map (fun _ => some true)) := by
  intro rs
  induction rs with
  | nil => intro fs evs fl outs h; simp
  | cons r rest ih =>
    intro fs evs fl outs h
    obtain ⟨c, hc, hmd⟩ := h r (List.mem_cons_self _ _)
    have hd := dvf_skip md5fn srv fs r main_url base_dir fl use_multi N c hc hmd
    have hstep : runStep md5fn srv main_url base_dir use_multi N (fs, evs, fl, outs) r =
        (fs, evs, fl, outs ++ [some true]) := by
      simp [runStep, hd]
    rw [List.foldl_cons, hstep,
      ih fs evs fl (outs ++ [some true]) (fun r' hr' => h r' (List.mem_cons_of_mem _ hr'))]
    simp

/-- C4: under a reachable server and pairwise distinct destination paths,
every resource of the batch reaches a terminal outcome (no orchestration
raises), and the failure list contains exactly those resources whose final
destination digest differs from their expected checksum — no more, no fewer
(in particular a mismatching resource never prevents its siblings'
outcomes). -/
theorem batch_failure_isolation (md5fn : List Nat → String) (srv : Server) (cwd : String)
    (fs : FS) (rs : List Resource) (main_url version json_name : String)
    (use_multi : Bool) (N maxF : Nat)
    (hH : ∀ u, (srv.headCL u).isSome = true)
    (hG : ∀ u, (srv.getBody u).isSome = true)
    (hR : ∀ u s e, (srv.rangeBody u s e).isSome = true)
    (hnd : (rs.map (destPathOf (pjoin (pjoin cwd "download") version))).Nodup) :
    (download_resources md5fn srv cwd fs rs main_url version json_name use_multi N
        maxF).outcomes.length = rs.length ∧
    (∀ o ∈ (download_resources md5fn srv cwd fs rs main_url version json_name use_multi N
        maxF).outcomes, o.isSome = true) ∧
    (download_resources md5fn srv cwd fs rs main_url version json_name use_multi N
        maxF).failed =
      rs.filter (fun r => !(digestOk md5fn
        (download_resources md5fn srv cwd fs rs main_url version json_name use_multi N
          maxF).fs
        (destPathOf (pjoin (pjoin cwd "download") version) r) r.md5)) := by
  obtain ⟨F, evs2, hfold, hFunch⟩ := runfold_spec md5fn srv main_url
    (pjoin (pjoin cwd "download") version) use_multi N hH hG hR rs fs [] [] [] hnd
  have hA : runAll md5fn srv cwd fs rs main_url version use_multi N =
      (F, evs2,
       [] ++ rs.filter (fun r => !(digestOk md5fn F
         (destPathOf (pjoin (pjoin cwd "download") version) r) r.md5)),
       [] ++ rs.map (fun r => some (digestOk md5fn F
         (destPathOf (pjoin (pjoin cwd "download") version) r) r.md5))) := hfold
  refine ⟨?_, ?_, ?_⟩
  · show (runAll md5fn srv cwd fs rs main_url version use_multi N).2.2.2.length = rs.length
    rw [hA]
    simp
  · show ∀ o ∈ (runAll md5fn srv cwd fs rs main_url version use_multi N).2.2.2,
      o.isSome = true
    rw [hA]
    intro o ho
    have ho' : o ∈ rs.map (fun r => some (digestOk md5fn F
        (destPathOf (pjoin (pjoin cwd "download") version) r) r.md5)) := by
      simpa using ho
    obtain ⟨r', hr', rfl⟩ := List.mem_map.mp ho'
    rfl
  · show (runAll md5fn srv cwd fs rs main_url version use_multi N).2.2.1 =
      rs.filter (fun r => !(digestOk md5fn
        (runAll md5fn srv cwd fs rs main_url version use_multi N).1
        (destPathOf (pjoin (pjoin cwd "download") version) r) r.md5))
    rw [hA]
    simp

/-- Witness for C4: a two-resource batch where the first is already valid on
disk (Skipped) and the second downloads with a mismatching digest (Failed);
both outcomes exist and the failure list is exactly the mismatching subset. -/
theorem batch_failure_isolation_witness :
    (download_resources (fun l => if l = [1] then "A" else "zz")
        (Server.mk (fun _ => some (some 1)) (fun _ => some [2]) (fun _ _ _ => some []))
        "c" (fun p => if p = "c/download/v/a" then some [1] else none)
        [Resource.mk "a" "A", Resource.mk "b" "B"] "u" "v" "cat.json" false 1
        5).outcomes.length = [Resource.mk "a" "A", Resource.mk "b" "B"].length ∧
    (∀ o ∈ (download_resources (fun l => if l = [1] then "A" else "zz")
        (Server.mk (fun _ => some (some 1)) (fun _ => some [2]) (fun _ _ _ => some []))
        "c" (fun p => if p = "c/download/v/a" then some [1] else none)
        [Resource.mk "a" "A", Resource.mk "b" "B"] "u" "v" "cat.json" false 1
        5).outcomes, o.isSome = true) ∧
    (download_resources (fun l => if l = [1] then "A" else "zz")
        (Server.mk (fun _ => some (some 1)) (fun _ => some [2]) (fun _ _ _ => some []))
        "c" (fun p => if p = "c/download/v/a" then some [1] else none)
        [Resource.mk "a" "A", Resource.mk "b" "B"] "u" "v" "cat.json" false 1
        5).failed =
      [Resource.mk "a" "A", Resource.mk "b" "B"].filter
        (fun r => !(digestOk (fun l => if l = [1] then "A" else "zz")
          (download_resources (fun l => if l = [1] then "A" else "zz")
            (Server.mk (fun _ => some (some 1)) (fun _ => some [2]) (fun _ _ _ => some []))
            "c" (fun p => if p = "c/download/v/a" then some [1] else none)
            [Resource.mk "a" "A", Resource.mk "b" "B"] "u" "v" "cat.json" false 1 5).fs
          (destPathOf (pjoin (pjoin "c" "download") "v") r) r.md5)) :=
  batch_failure_isolation (fun l => if l = [1] then "A" else "zz")
    (Server.mk (fun _ => some (some 1)) (fun _ => some [2]) (fun _ _ _ => some []))
    "c" (fun p => if p = "c/download/v/a" then some [1] else none)
    [Resource.mk "a" "A", Resource.mk "b" "B"] "u" "v" "cat.json" false 1 5
    (fun u => rfl) (fun u => rfl) (fun u s e => rfl) (by decide)

/-- C7: provided no orchestration raised, `download_resources` writes the
failure report iff the failure list is non-empty at the end of the run, and
then the report is at `failed/<version>/<json_name>` with exactly the failed
resources as its `{"resource": [...]}` entries (an unconditional
`open(..., 'w')` write — pre-existing files are overwritten; when the failure
list is empty nothing is written). -/
theorem failure_report_iff (md5fn : List Nat → String) (srv : Server) (cwd : String)
    (fs : FS) (rs : List Resource) (main_url version json_name : String)
    (use_multi : Bool) (N maxF : Nat)
    (hex : (download_resources md5fn srv cwd fs rs main_url version json_name use_multi N
      maxF).exc = false) :
    ((download_resources md5fn srv cwd fs rs main_url version json_name use_multi N
        maxF).report = none ↔
      (download_resources md5fn srv cwd fs rs main_url version json_name use_multi N
        maxF).failed = []) ∧
    ((download_resources md5fn srv cwd fs rs main_url version json_name use_multi N
        maxF).failed ≠ [] →
      (download_resources md5fn srv cwd fs rs main_url version json_name use_multi N
          maxF).report =
        some (pjoin (pjoin (pjoin cwd "failed") version) json_name,
          (download_resources md5fn srv cwd fs rs main_url version json_name use_multi N
            maxF).failed)) := by
  have hex' : (runAll md5fn srv cwd fs rs main_url version use_multi N).2.2.2.any
      (fun o => o.isNone) = false := hex
  have hrep : (download_resources md5fn srv cwd fs rs main_url version json_name use_multi N
      maxF).report =
      (if (runAll md5fn srv cwd fs rs main_url version use_multi N).2.2.1.isEmpty then none
       else some (pjoin (pjoin (pjoin cwd "failed") version) json_name,
         (runAll md5fn srv cwd fs rs main_url version use_multi N).2.2.1)) := by
    show (if (runAll md5fn srv cwd fs rs main_url version use_multi N).2.2.2.any
        (fun o => o.isNone) then none else _) = _
    rw [hex']
    simp
  have hfail : (download_resources md5fn srv cwd fs rs main_url version json_name use_multi N
      maxF).failed = (runAll md5fn srv cwd fs rs main_url version use_multi N).2.2.1 := rfl
  cases hl : (runAll md5fn srv cwd fs rs main_url version use_multi N).2.2.1 with
  | nil =>
    have hb : (runAll md5fn srv cwd fs rs main_url version use_multi N).2.2.1.isEmpty =
        true := by rw [hl]; rfl
    rw [hrep, if_pos hb, hfail, hl]
    exact ⟨⟨fun _ => rfl, fun _ => rfl⟩, fun hne => absurd rfl hne⟩
  | cons a l =>
    have hb : ¬ (runAll md5fn srv cwd fs rs main_url version use_multi N).2.2.1.isEmpty =
        true := by rw [hl]; simp
    rw [hrep, if_neg hb, hfail]
    refine ⟨⟨fun h => absurd h (by simp), fun h => ?_⟩, fun _ => rfl⟩
    exact absurd (hl.symm.trans h) (by simp)

/-- Witness for C7: one mismatching resource — the run does not raise, the
failure list is `[a]`, and the report is written at `failed/v/cat.json` with
exactly that list. -/
theorem failure_report_iff_witness :
    (download_resources (fun _ => "x")
        (Server.mk (fun _ => some (some 1)) (fun _ => some [1]) (fun _ _ _ => some []))
        "c" (fun _ => none) [Resource.mk "a" "m"] "u" "v" "cat.json" false 1 3).failed =
      [Resource.mk "a" "m"] ∧
    (download_resources (fun _ => "x")
        (Server.mk (fun _ => some (some 1)) (fun _ => some [1]) (fun _ _ _ => some []))
        "c" (fun _ => none) [Resource.mk "a" "m"] "u" "v" "cat.json" false 1 3).report =
      some (pjoin (pjoin (pjoin "c" "failed") "v") "cat.json",
        (download_resources (fun _ => "x")
          (Server.mk (fun _ => some (some 1)) (fun _ => some [1]) (fun _ _ _ => some []))
          "c" (fun _ => none) [Resource.mk "a" "m"] "u" "v" "cat.json" false 1 3).failed) :=
  ⟨by decide,
   (failure_report_iff (fun _ => "x")
      (Server.mk (fun _ => some (some 1)) (fun _ => some [1]) (fun _ _ _ => some []))
      "c" (fun _ => none) [Resource.mk "a" "m"] "u" "v" "cat.json" false 1 3
      (by decide)).2 (by decide)⟩

/-- C8: running the whole batch a second time after a first run in which
every resource succeeded performs zero network fetches: every resource is
Skipped (`True` without any request), the filesystem is unchanged, the
failure list stays empty and no report is written. -/
theorem second_run_all_skipped (md5fn : List Nat → String) (srv : Server) (cwd : String)
    (fs0 : FS) (rs : List Resource) (main_url version json_name : String)
    (use_multi : Bool) (N maxF : Nat)
    (hH : ∀ u, (srv.headCL u).isSome = true)
    (hG : ∀ u, (srv.getBody u).isSome = true)
    (hR : ∀ u s e, (srv.rangeBody u s e).isSome = true)
    (hnd : (rs.map (destPathOf (pjoin (pjoin cwd "download") version))).Nodup)
    (h1 : ∀ o ∈ (download_resources md5fn srv cwd fs0 rs main_url version json_name
      use_multi N maxF).outcomes, o = some true) :
    (download_resources md5fn srv cwd
        (download_resources md5fn srv cwd fs0 rs main_url version json_name use_multi N
          maxF).fs
        rs main_url version json_name use_multi N maxF).events = [] ∧
    (download_resources md5fn srv cwd
        (download_resources md5fn srv cwd fs0 rs main_url version json_name use_multi N
          maxF).fs
        rs main_url version json_name use_multi N maxF).outcomes =
      rs.map (fun _ => some true) ∧
    (∀ p, (download_resources md5fn srv cwd
        (download_resources md5fn srv cwd fs0 rs main_url version json_name use_multi N
          maxF).fs
        rs main_url version json_name use_multi N maxF).fs p =
      (download_resources md5fn srv cwd fs0 rs main_url version json_name use_multi N
        maxF).fs p) ∧
    (download_resources md5fn srv cwd
        (download_resources md5fn srv cwd fs0 rs main_url version json_name use_multi N
          maxF).fs
        rs main_url version json_name use_multi N maxF).failed = [] ∧
    (download_resources md5fn srv cwd
        (download_resources md5fn srv cwd fs0 rs main_url version json_name use_multi N
          maxF).fs
        rs main_url version json_name use_multi N maxF).report = none := by
  obtain ⟨F, evs2, hfold, hFunch⟩ := runfold_spec md5fn srv main_url
    (pjoin (pjoin cwd "download") version) use_multi N hH hG hR rs fs0 [] [] [] hnd
  have hA : runAll md5fn srv cwd fs0 rs main_url version use_multi N =
      (F, evs2,
       [] ++ rs.filter (fun r => !(digestOk md5fn F
         (destPathOf (pjoin (pjoin cwd "download") version) r) r.md5)),
       [] ++ rs.map (fun r => some (digestOk md5fn F
         (destPathOf (pjoin (pjoin cwd "download") version) r) r.md5))) := hfold
  have hfs1 : (download_resources md5fn srv cwd fs0 rs main_url version json_name use_multi N
      maxF).fs = F := by
    show (runAll md5fn srv cwd fs0 rs main_url version use_multi N).1 = F
    rw [hA]
  have hall : ∀ r ∈ rs,
      digestOk md5fn F (destPathOf (pjoin (pjoin cwd "download") version) r) r.md5 = true := by
    intro r hr
    have hmem : some (digestOk md5fn F
        (destPathOf (pjoin (pjoin cwd "download") version) r) r.md5) ∈
        (download_resources md5fn srv cwd fs0 rs main_url version json_name use_multi N
          maxF).outcomes := by
      show _ ∈ (runAll md5fn srv cwd fs0 rs main_url version use_multi N).2.2.2
      rw [hA, List.nil_append]
      exact List.mem_map_of_mem _ hr
    exact Option.some.inj (h1 _ hmem)
  have hmatch : ∀ r ∈ rs, ∃ c : List Nat,
      F (destPathOf (pjoin (pjoin cwd "download") version) r) = some c ∧ md5fn c = r.md5 := by
    intro r hr
    have hok := hall r hr
    cases hF : F (destPathOf (pjoin (pjoin cwd "download") version) r) with
    | none => simp [digestOk, hF] at hok
    | some c =>
      simp only [digestOk, hF, beq_iff_eq] at hok
      exact ⟨c, rfl, hok⟩
  have h2nd : runAll md5fn srv cwd F rs main_url version use_multi N =
      (F, [], [], [] ++ rs.map (fun _ => some true)) :=
    allskip_fold md5fn srv main_url (pjoin (pjoin cwd "download") version) use_multi N
      rs F [] [] [] hmatch
  rw [hfs1]
  refine ⟨?_, ?_, ?_, ?_, ?_⟩
  · show (runAll md5fn srv cwd F rs main_url version use_multi N).2.1 = []
    rw [h2nd]
  · show (runAll md5fn srv cwd F rs main_url version use_multi N).2.2.2 =
      rs.map (fun _ => some true)
    rw [h2nd]
    simp
  · intro p
    show (runAll md5fn srv cwd F rs main_url version use_multi N).1 p = F p
    rw [h2nd]
  · show (runAll md5fn srv cwd F rs main_url version use_multi N).2.2.1 = []
    rw [h2nd]
  · show (if (runAll md5fn srv cwd F rs main_url version use_multi N).2.2.2.any
        (fun o => o.isNone) then none
      else if (runAll md5fn srv cwd F rs main_url version use_multi N).2.2.1.isEmpty then none
      else some (pjoin (pjoin (pjoin cwd "failed") version) json_name,
        (runAll md5fn srv cwd F rs main_url version use_multi N).2.2.1)) = none
    rw [h2nd]
    by_cases hb : (([] : List (Option Bool)) ++ rs.map (fun _ => some true)).any
        (fun o => o.isNone) = true
    · rw [if_pos hb]
    · rw [if_neg hb]
      simp

/-- Witness for C8: a one-resource catalog already valid on disk; the second
run (like the first) issues no request and changes nothing. -/
theorem second_run_all_skipped_witness :
    (download_resources (fun l => if l = [1] then "A" else "z")
        (Server.mk (fun _ => some (some 1)) (fun _ => some []) (fun _ _ _ => some []))
        "c" (download_resources (fun l => if l = [1] then "A" else "z")
          (Server.mk (fun _ => some (some 1)) (fun _ => some []) (fun _ _ _ => some []))
          "c" (fun p => if p = "c/download/v/a" then some [1] else none)
          [Resource.mk "a" "A"] "u" "v" "cat.json" false 1 2).fs
        [Resource.mk "a" "A"] "u" "v" "cat.json" false 1 2).events = [] ∧
    (download_resources (fun l => if l = [1] then "A" else "z")
        (Server.mk (fun _ => some (some 1)) (fun _ => some []) (fun _ _ _ => some []))
        "c" (download_resources (fun l => if l = [1] then "A" else "z")
          (Server.mk (fun _ => some (some 1)) (fun _ => some []) (fun _ _ _ => some []))
          "c" (fun p => if p = "c/download/v/a" then some [1] else none)
          [Resource.mk "a" "A"] "u" "v" "cat.json" false 1 2).fs
        [Resource.mk "a" "A"] "u" "v" "cat.json" false 1 2).outcomes =
      [Resource.mk "a" "A"].map (fun _ => some true) ∧
    (∀ p, (download_resources (fun l => if l = [1] then "A" else "z")
        (Server.mk (fun _ => some (some 1)) (fun _ => some []) (fun _ _ _ => some []))
        "c" (download_resources (fun l => if l = [1] then "A" else "z")
          (Server.mk (fun _ => some (some 1)) (fun _ => some []) (fun _ _ _ => some []))
          "c" (fun p => if p = "c/download/v/a" then some [1] else none)
          [Resource.mk "a" "A"] "u" "v" "cat.json" false 1 2).fs
        [Resource.mk "a" "A"] "u" "v" "cat.json" false 1 2).fs p =
      (download_resources (fun l => if l = [1] then "A" else "z")
        (Server.mk (fun _ => some (some 1)) (fun _ => some []) (fun _ _ _ => some []))
        "c" (fun p => if p = "c/download/v/a" then some [1] else none)
        [Resource.mk "a" "A"] "u" "v" "cat.json" false 1 2).fs p) ∧
    (download_resources (fun l => if l = [1] then "A" else "z")
        (Server.mk (fun _ => some (some 1)) (fun _ => some []) (fun _ _ _ => some []))
        "c" (download_resources (fun l => if l = [1] then "A" else "z")
          (Server.mk (fun _ => some (some 1)) (fun _ => some []) (fun _ _ _ => some []))
          "c" (fun p => if p = "c/download/v/a" then some [1] else none)
          [Resource.mk "a" "A"] "u" "v" "cat.json" false 1 2).fs
        [Resource.mk "a" "A"] "u" "v" "cat.json" false 1 2).failed = [] ∧
    (download_resources (fun l => if l = [1] then "A" else "z")
        (Server.mk (fun _ => some (some 1)) (fun _ => some []) (fun _ _ _ => some []))
        "c" (download_resources (fun l => if l = [1] then "A" else "z")
          (Server.mk (fun _ => some (some 1)) (fun _ => some []) (fun _ _ _ => some []))
          "c" (fun p => if p = "c/download/v/a" then some [1] else none)
          [Resource.mk "a" "A"] "u" "v" "cat.json" false 1 2).fs
        [Resource.mk "a" "A"] "u" "v" "cat.json" false 1 2).report = none :=
  second_run_all_skipped (fun l => if l = [1] then "A" else "z")
    (Server.mk (fun _ => some (some 1)) (fun _ => some []) (fun _ _ _ => some []))
    "c" (fun p => if p = "c/download/v/a" then some [1] else none)
    [Resource.mk "a" "A"] "u" "v" "cat.json" false 1 2
    (fun u => rfl) (fun u => rfl) (fun u s e => rfl) (by decide) (by decide)

end WWRD
